import Mathlib

/-!
Shallow embedding of the tire-training-tool repository
(`server/segmentation.py`, `server/run_preprocess.py`,
`server/run_segmentation.py`) and proofs about its specification.

Conventions of the embedding:
* Python strings are Lean `String`s; `str.lower()` is modelled by `pyLower`
  (ASCII case mapping, which covers every string the code compares against).
* `os.environ` is modelled as a function `String → Option String`.
* Python floats (the box / point coordinates, handled as `np.float32`) are
  modelled as `ℚ`: every comparison and clip the code performs is
  order-theoretic, so no rounding behaviour is relevant to the claims.
* Exceptions are modelled with `Except String`; global mutable state
  (the model cache) is threaded explicitly, and a raised exception leaves
  the state unchanged, as in the source.
-/

/-- ASCII lower-casing of one character, modelling Python `str.lower()`
on the ASCII range used by the code. -/
def charLower (c : Char) : Char :=
  if 65 ≤ c.toNat ∧ c.toNat ≤ 90 then Char.ofNat (c.toNat + 32) else c

/-- Python `s.lower()` (ASCII model). -/
def pyLower (s : String) : String :=
  ⟨s.data.map charLower⟩

/-- Python `a or b` where `a` is an optional string and `b` a string:
returns `a`'s value when it is truthy, else `b`. -/
def pyOr (a : Option String) (b : String) : String :=
  match a with
  | none => b
  | some s => if s = "" then b else s

/-- The process environment, `os.environ`. -/
def Env : Type := String → Option String

/-- Python `os.getenv(name, default)`. -/
def getenvD (env : Env) (name default : String) : String :=
  (env name).getD default

/-- The tuple `VALID_MODEL_SIZES = ("tiny", "small", "base", "large")`. -/
def VALID_MODEL_SIZES : List String := ["tiny", "small", "base", "large"]

/-- The `SAM_MODEL_FILES` dict of `segmentation.py` (built from the
environment at import time); the lookup is only ever performed after the
size was checked against `VALID_MODEL_SIZES`, so the final catch-all
branch is unreachable in the guarded code. -/
def SAM_MODEL_FILES (env : Env) (size : String) : String :=
  if size = "tiny" then getenvD env "SAM_MODEL_TINY_PATH" "sam_t.pt"
  else if size = "small" then getenvD env "SAM_MODEL_SMALL_PATH" "sam_s.pt"
  else if size = "base" then
    pyOr (env "SAM_MODEL_PATH") (getenvD env "SAM_MODEL_BASE_PATH" "sam_b.pt")
  else if size = "large" then getenvD env "SAM_MODEL_LARGE_PATH" "sam_l.pt"
  else ""

/-- The `SAM2_MODEL_FILES` dict of `segmentation.py`. -/
def SAM2_MODEL_FILES (env : Env) (size : String) : String :=
  if size = "tiny" then getenvD env "SAM2_MODEL_TINY_PATH" "sam2_t.pt"
  else if size = "small" then getenvD env "SAM2_MODEL_SMALL_PATH" "sam2_s.pt"
  else if size = "base" then
    pyOr (env "SAM2_MODEL_PATH") (getenvD env "SAM2_MODEL_BASE_PATH" "sam2_b.pt")
  else if size = "large" then getenvD env "SAM2_MODEL_LARGE_PATH" "sam2_l.pt"
  else ""

/-- The function `_resolve_weights(algorithm, size)`: lower-case the size, check it
against `VALID_MODEL_SIZES`, look the path up in the per-algorithm dict,
and reject an empty configured path. -/
def resolveWeights (env : Env) (algorithm size : String) : Except String String :=
  let size := pyLower size
  if size ∉ VALID_MODEL_SIZES then
    .error ("Dimensione modello non supportata: " ++ size)
  else
    match
      (if algorithm = "sam" then .ok (SAM_MODEL_FILES env size)
       else if algorithm = "sam2" then .ok (SAM2_MODEL_FILES env size)
       else .error ("Algoritmo di segmentazione non supportato: " ++ algorithm)
       : Except String String) with
    | .error e => .error e
    | .ok weights =>
      if weights = "" then
        .error ("Peso del modello non configurato per " ++ algorithm ++ ":" ++ size)
      else .ok weights

/-- A loaded `UltralyticsSAM` model instance.  The `uid` field records the
construction order, so that two distinct constructions are distinguishable
and "returns the identical cached instance" is expressible. -/
structure Model where
  algorithm : String
  weights : String
  uid : ℕ
  deriving DecidableEq, Repr

/-- The process-wide mutable state of `segmentation.py`: the
`_model_cache` dict and the (observational) list of weight files passed to
the `UltralyticsSAM` constructor, in order. -/
structure LoadState where
  cache : List (String × Model)
  constructed : List String
  deriving DecidableEq, Repr

/-- Lookup in the cache dict (`cache_key in _model_cache`). -/
def cacheFind (k : String) : List (String × Model) → Option Model
  | [] => none
  | (k', m) :: rest => if k' = k then some m else cacheFind k rest

/-- Error message raised when `ultralytics` could not be imported. -/
def availMsg : String :=
  "Il modello SAM non è disponibile: installa ultralytics con supporto SAM."

/-- The function `_load_model(algorithm, size)`.  Here `avail` models whether the
`ultralytics` import succeeded (`UltralyticsSAM is not None`).  On an
exception the state is returned unchanged, as in the source, where the
raise happens before any mutation. -/
def loadModel (avail : Bool) (env : Env) (algorithm size : String)
    (st : LoadState) : Except String Model × LoadState :=
  if avail = false then (.error availMsg, st)
  else
    let key := algorithm ++ ":" ++ pyLower size
    match cacheFind key st.cache with
    | some m => (.ok m, st)
    | none =>
      match resolveWeights env algorithm size with
      | .error e => (.error e, st)
      | .ok w =>
        let m : Model := ⟨algorithm, w, st.constructed.length⟩
        (.ok m, ⟨(key, m) :: st.cache, st.constructed ++ [w]⟩)

/-- Scalar `np.clip(v, lo, hi)`. -/
def npClip (v lo hi : ℚ) : ℚ := min (max v lo) hi

/-- The box-prompt branch of `_segment_with_model` (lines 85-99): on a
decoded image of width `w` and height `h`, validate that the bounding box
holds exactly 4 values, clip the x-coordinates to `[0, w-1]` and the
y-coordinates to `[0, h-1]`, reorder each axis so min ≤ max, reject a box
whose resulting extent is below 1 on either axis, and return the
normalized `[x_min, y_min, x_max, y_max]` handed to `model.predict`. -/
def boxStep (w h : ℕ) (bbox : Option (List ℚ)) : Except String (List ℚ) :=
  match bbox with
  | none => .error "Devi fornire un bounding box per la modalità box."
  | some b =>
    match b with
    | [x1, y1, x2, y2] =>
      let x1 := npClip x1 0 ((w : ℚ) - 1)
      let x2 := npClip x2 0 ((w : ℚ) - 1)
      let y1 := npClip y1 0 ((h : ℚ) - 1)
      let y2 := npClip y2 0 ((h : ℚ) - 1)
      let xm := if x1 ≤ x2 then (x1, x2) else (x2, x1)
      let ym := if y1 ≤ y2 then (y1, y2) else (y2, y1)
      if |xm.2 - xm.1| < 1 ∨ |ym.2 - ym.1| < 1 then
        .error "Il bounding box è troppo piccolo."
      else .ok [xm.1, ym.1, xm.2, ym.2]
    | _ => .error "Il bounding box deve contenere 4 valori [x1, y1, x2, y2]."

/-- The point-prompt branch of `_segment_with_model` (lines 100-113):
require a non-empty point list whose entries are all 2-element
coordinates, require a supplied label list to match the point count
(defaulting to all-foreground when absent), clip every label into
`{0,1}`, and return the `(points, labels)` pair handed to
`model.predict`. -/
def pointStep (points : Option (List (List ℚ))) (labels : Option (List ℤ)) :
    Except String (List (List ℚ) × List ℤ) :=
  match points with
  | none => .error "Devi fornire almeno un punto per la segmentazione."
  | some ps =>
    if ps = [] then .error "Devi fornire almeno un punto per la segmentazione."
    else if _hp : ∀ p ∈ ps, p.length = 2 then
      match labels with
      | some ls =>
        if ls.length ≠ ps.length then
          .error "Il numero di label non corrisponde ai punti."
        else .ok (ps, ls.map (fun v => min (max v 0) 1))
      | none => .ok (ps, List.replicate ps.length 1)
    else .error "Ogni punto deve essere nella forma [x, y]."

/-- A single image channel plane (height × width grid of intensities). -/
abbrev Gray : Type := List (List ℕ)

/-- An image as a list of channel planes; a 3-channel BGR image has three
planes, a BGRA one four. -/
structure Img where
  planes : List Gray

/-- Number of channels of an image. -/
def Img.channels (img : Img) : ℕ := img.planes.length

/-- The function `to_bgr(gray, alpha)` of `run_preprocess.py`: expand the single
channel to three identical BGR planes (`cv2.COLOR_GRAY2BGR` replicates
the channel) and, when an alpha plane is present, merge it back as a
fourth channel. -/
def to_bgr (gray : Gray) (alpha : Option Gray) : Img :=
  match alpha with
  | some a => ⟨[gray, gray, gray, a]⟩
  | none => ⟨[gray, gray, gray]⟩

/-- Model of `cv2.cvtColor(·, cv2.COLOR_BGR2GRAY)`: defined for 3- or 4-channel
input (alpha ignored), errors otherwise.  The photometric conversion
itself is the codec library's and is abstracted as `f`. -/
def cvtColorBGR2GRAY (f : Gray → Gray → Gray → Gray) (img : Img) :
    Except String Gray :=
  match img.planes with
  | [b, g, r] => .ok (f b g r)
  | [b, g, r, _a] => .ok (f b g r)
  | _ => .error "cvtColor: invalid number of channels"

/-- The function `apply_processing(img, mode)` of `run_preprocess.py`: split off the
alpha plane of a 4-channel image, convert the rest to grayscale, apply
the filter selected by `mode` (the filters themselves are the image
library's: `claheF`, `adaptiveF`, `gaussianF` abstract
`cv2.createCLAHE(...).apply`, `cv2.adaptiveThreshold`,
`cv2.GaussianBlur`), and re-expand with `to_bgr`, reattaching the alpha
plane unchanged. -/
def apply_processing (f : Gray → Gray → Gray → Gray)
    (claheF adaptiveF gaussianF : Gray → Gray) (img : Img) (mode : String) :
    Except String Img :=
  let split : Option Gray × Img :=
    match img.planes with
    | [b, g, r, a] => (some a, ⟨[b, g, r]⟩)
    | _ => (none, img)
  match cvtColorBGR2GRAY f split.2 with
  | .error e => .error e
  | .ok gray =>
    if mode = "standard" then .ok (to_bgr gray split.1)
    else if mode = "clahe" then .ok (to_bgr (claheF gray) split.1)
    else if mode = "adaptive" then .ok (to_bgr (adaptiveF gray) split.1)
    else if mode = "gaussian" then .ok (to_bgr (gaussianF gray) split.1)
    else .error ("Modalità non supportata: " ++ mode)

/-- File-system side effects of the preprocessing `main`. -/
inductive FsEv where
  | mkdirParents (path : String)
  | write (path : String)
  deriving DecidableEq

/-- The tail of `main` in `run_preprocess.py` after the input image was
read and decoded: run `apply_processing`, and only on success create the
output's parent directories and write the output file.  On an exception
the process aborts with no file-system effect. -/
def mainPreprocess (f : Gray → Gray → Gray → Gray)
    (claheF adaptiveF gaussianF : Gray → Gray) (img : Img)
    (mode outPath : String) : Except String Unit × List FsEv :=
  match apply_processing f claheF adaptiveF gaussianF img mode with
  | .error e => (.error e, [])
  | .ok _processed => (.ok (), [.mkdirParents outPath, .write outPath])

/-- The function `decode_json_b64(value)` of `run_segmentation.py`: a falsy value
(`None` or the empty string) decodes to `None`; otherwise the
base64+JSON decoding `dec` (the standard library's, abstracted) runs and
may fail. -/
def decode_json_b64 {J : Type} (dec : String → Except String J)
    (value : Option String) : Except String (Option J) :=
  match value with
  | none => .ok none
  | some s => if s = "" then .ok none else (dec s).map some

/-- An RGB pixel row image: rows of pixels, each pixel a channel list. -/
abbrev RGBImg : Type := List (List (List ℕ))

/-- Assignment `masked_rgb[mask == 0] = [0, 0, 0]` (lines 124-126): every pixel whose
mask entry is 0 is replaced by black, the rest kept. -/
def blackOutside (img : RGBImg) (mask : List (List ℕ)) : RGBImg :=
  List.zipWith
    (fun row mrow =>
      List.zipWith (fun px m => if m = 0 then [0, 0, 0] else px) row mrow)
    img mask

/-- Minimum of a list of naturals, `none` on the empty list. -/
def listMin : List ℕ → Option ℕ
  | [] => none
  | x :: xs =>
    match listMin xs with
    | none => some x
    | some m => some (Nat.min x m)

/-- Maximum of a list of naturals, `none` on the empty list. -/
def listMax : List ℕ → Option ℕ
  | [] => none
  | x :: xs =>
    match listMax xs with
    | none => some x
    | some m => some (Nat.max x m)

/-- Row indices holding at least one nonzero mask entry. -/
def nonzeroRows (mask : List (List ℕ)) : List ℕ :=
  (mask.enum.filter (fun im => im.2.any (fun v => v != 0))).map (fun im => im.1)

/-- Column indices holding at least one nonzero mask entry. -/
def nonzeroCols (mask : List (List ℕ)) : List ℕ :=
  (mask.map (fun row => (row.enum.filter (fun jv => jv.2 != 0)).map (fun jv => jv.1))).flatten

/-- Model of `cv2.boundingRect(mask)` on a binary mask: the tight axis-aligned
rectangle `(x, y, w, h)` around the nonzero entries, `(0, 0, 0, 0)` when
the mask is everywhere zero. -/
def boundingRect (mask : List (List ℕ)) : ℕ × ℕ × ℕ × ℕ :=
  match listMin (nonzeroCols mask), listMax (nonzeroCols mask),
        listMin (nonzeroRows mask), listMax (nonzeroRows mask) with
  | some xmin, some xmax, some ymin, some ymax =>
    (xmin, ymin, xmax - xmin + 1, ymax - ymin + 1)
  | _, _, _, _ => (0, 0, 0, 0)

/-- Python slice `l[a:b]`, which clamps out-of-range bounds. -/
def pySlice {α : Type} (l : List α) (a b : ℕ) : List α :=
  (l.drop a).take (b - a)

/-- Lines 128-129 of `segmentation.py`: compute the mask's bounding
rectangle; when its width or height is 0, keep the full blacked image,
otherwise crop to `masked_rgb[y : y + h_box, x : x + w_box]`. -/
def cropStep (masked : RGBImg) (mask : List (List ℕ)) : RGBImg :=
  let r := boundingRect mask
  if r.2.2.1 = 0 ∨ r.2.2.2 = 0 then masked
  else (pySlice masked r.2.1 (r.2.1 + r.2.2.2)).map
    (fun row => pySlice row r.1 (r.1 + r.2.2.1))

/-- The mask post-processing of `_segment_with_model` (lines 122-129) on
an already-thresholded binary mask: black out pixels outside the mask,
then crop to the mask's bounding rectangle if it is nondegenerate.  The
final `cv2.imencode(".png", ·)` is the codec library's and preserves the
array's spatial dimensions. -/
def maskPostprocess (img : RGBImg) (mask : List (List ℕ)) : RGBImg :=
  cropStep (blackOutside img mask) mask

/-- Spec-side helper for the comparison with `_resolve_weights`: ASCII
upper-casing of one character. -/
def charUpper (c : Char) : Char :=
  if 97 ≤ c.toNat ∧ c.toNat ≤ 122 then Char.ofNat (c.toNat - 32) else c

/-- ASCII upper-casing of a string, used to spell the configuration
variable naming pattern `<ALGO>_MODEL_<SIZE>_PATH` from the spec. -/
def pyUpper (s : String) : String :=
  ⟨s.data.map charUpper⟩

/-- The spec's per-size environment variable name
`<ALGO>_MODEL_<SIZE>_PATH`. -/
def specVar (algo size : String) : String :=
  pyUpper algo ++ "_MODEL_" ++ pyUpper size ++ "_PATH"

/-- The spec's base-size fallback variable name `<ALGO>_MODEL_PATH`. -/
def specBaseVar (algo : String) : String :=
  pyUpper algo ++ "_MODEL_PATH"

/-- The default weight filename for an (algorithm, size) pair. -/
def defaultFile (algo size : String) : String :=
  algo ++ "_" ++
    (if size = "tiny" then "t"
     else if size = "small" then "s"
     else if size = "base" then "b"
     else "l") ++ ".pt"

/-- Weight path resolution as the amended claim C4 describes it: for every
size the variable `<ALGO>_MODEL_<SIZE>_PATH` with a default filename
fallback, except that for the "base" size the variable `<ALGO>_MODEL_PATH`
takes priority when set to a truthy value, with `<ALGO>_MODEL_BASE_PATH`
(then the default filename) as fallback. -/
def specWeights (env : Env) (algo size : String) : String :=
  if size = "base" then
    pyOr (env (specBaseVar algo)) (getenvD env (specVar algo size) (defaultFile algo size))
  else getenvD env (specVar algo size) (defaultFile algo size)

/-- C9: `decode_json_b64` maps the empty string exactly like an absent
argument — `None` and `""` both decode to `None` without invoking the
base64/JSON decoder, and a decoding error can only arise for a non-empty
string. -/
theorem decode_json_b64_falsy {J : Type} (dec : String → Except String J)
    (value : Option String) :
    ((value = none ∨ value = some "") → decode_json_b64 dec value = .ok none) ∧
    (∀ e, decode_json_b64 dec value = .error e → ∃ s, value = some s ∧ s ≠ "") := by
  constructor
  · rintro (rfl | rfl) <;> rfl
  · intro e he
    match value with
    | none => simp [decode_json_b64] at he
    | some s =>
      refine ⟨s, rfl, fun hs => ?_⟩
      subst hs
      simp [decode_json_b64] at he

/-- Witness for C9 at a concrete decoder and the empty string. -/
theorem decode_json_b64_falsy_witness :
    decode_json_b64 (fun _ => (.error "bad" : Except String ℕ)) (some "") = .ok none :=
  (decode_json_b64_falsy (fun _ => (.error "bad" : Except String ℕ)) (some "")).1
    (Or.inr rfl)

/-- C6: for every supported filter mode on a 3- or 4-channel image,
`apply_processing` succeeds, the output channel count equals the input's,
and for a 4-channel input the alpha plane (index 3) is reattached
unchanged.  The filter functions are arbitrary, as they are the image
library's. -/
theorem apply_processing_channels (f : Gray → Gray → Gray → Gray)
    (cF aF gF : Gray → Gray) (img : Img) (mode : String)
    (hm : mode ∈ ["standard", "clahe", "adaptive", "gaussian"])
    (hc : img.channels = 3 ∨ img.channels = 4) :
    ∃ out, apply_processing f cF aF gF img mode = .ok out ∧
      out.channels = img.channels ∧
      (img.channels = 4 → out.planes[3]? = img.planes[3]?) := by
  obtain ⟨planes⟩ := img
  simp only [Img.channels] at hc ⊢
  simp only [List.mem_cons, List.mem_singleton, List.not_mem_nil, or_false] at hm
  rcases planes with _ | ⟨p0, _ | ⟨p1, _ | ⟨p2, _ | ⟨p3, rest⟩⟩⟩⟩ <;>
    simp only [List.length_nil, List.length_cons] at hc <;>
    try omega
  · -- 3-channel image
    rcases hm with rfl | rfl | rfl | rfl <;>
      simp [apply_processing, cvtColorBGR2GRAY, to_bgr, Img.channels]
  · -- 4-channel (or longer) image
    rcases rest with _ | ⟨p4, rest⟩
    · rcases hm with rfl | rfl | rfl | rfl <;>
        simp [apply_processing, cvtColorBGR2GRAY, to_bgr, Img.channels]
    · simp only [List.length_cons] at hc; omega

/-- Witness for C6 on a concrete 4-channel image with mode `clahe`. -/
theorem apply_processing_channels_witness :
    ∃ out, apply_processing (fun b _ _ => b) id id id
        ⟨[[[1]], [[2]], [[3]], [[7]]]⟩ "clahe" = .ok out ∧
      out.channels = Img.channels ⟨[[[1]], [[2]], [[3]], [[7]]]⟩ ∧
      (Img.channels ⟨[[[1]], [[2]], [[3]], [[7]]]⟩ = 4 →
        out.planes[3]? = (⟨[[[1]], [[2]], [[3]], [[7]]]⟩ : Img).planes[3]?) :=
  apply_processing_channels (fun b _ _ => b) id id id
    ⟨[[[1]], [[2]], [[3]], [[7]]]⟩ "clahe" (by decide) (by decide)

/-- C8: for every mode outside the supported set, the preprocessing run
fails — on any image the program accepts (3 or 4 channels) with the
invalid-argument error naming the mode — and in every case no file-system
write event occurs on this error path. -/
theorem preprocess_bad_mode (f : Gray → Gray → Gray → Gray)
    (cF aF gF : Gray → Gray) (img : Img) (mode outPath : String)
    (hm : mode ∉ ["standard", "clahe", "adaptive", "gaussian"]) :
    ((img.channels = 3 ∨ img.channels = 4) →
      mainPreprocess f cF aF gF img mode outPath =
        (.error ("Modalità non supportata: " ++ mode), [])) ∧
    (∀ p, FsEv.write p ∉ (mainPreprocess f cF aF gF img mode outPath).2) := by
  obtain ⟨planes⟩ := img
  simp only [List.mem_cons, List.mem_singleton, List.not_mem_nil, or_false,
    not_or] at hm
  obtain ⟨h1, h2, h3, h4⟩ := hm
  have herr : ∀ planes' : List Gray,
      ∃ e, apply_processing f cF aF gF ⟨planes'⟩ mode = .error e := by
    intro planes'
    rcases planes' with _ | ⟨p0, _ | ⟨p1, _ | ⟨p2, _ | ⟨p3, _ | ⟨p4, rest⟩⟩⟩⟩⟩ <;>
      simp [apply_processing, cvtColorBGR2GRAY, h1, h2, h3, h4]
  constructor
  · rintro (hc | hc) <;> simp only [Img.channels] at hc <;>
      rcases planes with _ | ⟨p0, _ | ⟨p1, _ | ⟨p2, _ | ⟨p3, _ | ⟨p4, rest⟩⟩⟩⟩⟩ <;>
      simp only [List.length_nil, List.length_cons] at hc <;>
      first
        | omega
        | simp [mainPreprocess, apply_processing, cvtColorBGR2GRAY, h1, h2, h3, h4]
  · intro p
    obtain ⟨e, he⟩ := herr planes
    simp [mainPreprocess, he]

/-- Witness for C8 at mode "weird" on a concrete 3-channel image. -/
theorem preprocess_bad_mode_witness :
    mainPreprocess (fun b _ _ => b) id id id ⟨[[[1]], [[2]], [[3]]]⟩ "weird" "o.png" =
      (.error ("Modalità non supportata: " ++ "weird"), []) ∧
    (∀ p, FsEv.write p ∉
      (mainPreprocess (fun b _ _ => b) id id id ⟨[[[1]], [[2]], [[3]]]⟩ "weird" "o.png").2) :=
  ⟨(preprocess_bad_mode (fun b _ _ => b) id id id ⟨[[[1]], [[2]], [[3]]]⟩ "weird" "o.png"
      (by decide)).1 (Or.inl (by decide)),
   (preprocess_bad_mode (fun b _ _ => b) id id id ⟨[[[1]], [[2]], [[3]]]⟩ "weird" "o.png"
      (by decide)).2⟩

/-- C2: for every point-prompt request, an absent or empty point list
fails; a point that is not a 2-element coordinate fails; a supplied label
list with a count differing from the point count fails; absent labels
default every point to foreground label 1; and every supplied label is
clamped into `{0, 1}` in the pair handed to the model. -/
theorem pointStep_spec (labels : Option (List ℤ)) (ps : List (List ℚ))
    (ls : List ℤ) :
    (pointStep none labels =
      .error "Devi fornire almeno un punto per la segmentazione.") ∧
    (pointStep (some []) labels =
      .error "Devi fornire almeno un punto per la segmentazione.") ∧
    ((∃ p ∈ ps, p.length ≠ 2) →
      pointStep (some ps) labels = .error "Ogni punto deve essere nella forma [x, y].") ∧
    (ps ≠ [] → (∀ p ∈ ps, p.length = 2) → ls.length ≠ ps.length →
      pointStep (some ps) (some ls) = .error "Il numero di label non corrisponde ai punti.") ∧
    (ps ≠ [] → (∀ p ∈ ps, p.length = 2) →
      pointStep (some ps) none = .ok (ps, List.replicate ps.length 1)) ∧
    (ps ≠ [] → (∀ p ∈ ps, p.length = 2) → ls.length = ps.length →
      pointStep (some ps) (some ls) = .ok (ps, ls.map (fun v => min (max v 0) 1)) ∧
      ∀ v ∈ ls.map (fun v => min (max v 0) 1), v = 0 ∨ v = 1) := by
  refine ⟨rfl, rfl, ?_, ?_, ?_, ?_⟩
  · rintro ⟨p, hp, hlen⟩
    have hne : ps ≠ [] := by rintro rfl; simp at hp
    have hall : ¬ ∀ q ∈ ps, q.length = 2 := fun hall => hlen (hall p hp)
    simp [pointStep, hne, hall]
  · intro hne hall hcount
    simp only [pointStep, if_neg hne, dif_pos hall, if_pos hcount]
  · intro hne hall
    simp only [pointStep, if_neg hne, dif_pos hall]
  · intro hne hall hcount
    refine ⟨by simp only [pointStep, if_neg hne, dif_pos hall, hcount,
      if_neg (by omega : ¬ ps.length ≠ ps.length)], ?_⟩
    intro v hv
    simp only [List.mem_map] at hv
    obtain ⟨u, _, rfl⟩ := hv
    rcases le_or_lt u 0 with h | h
    · left
      rw [max_eq_right h, min_eq_left (by norm_num : (0:ℤ) ≤ 1)]
    · right
      have h1 : (1:ℤ) ≤ u := h
      rw [max_eq_left (le_of_lt h), min_eq_right h1]

/-- Witness for C2: the spec's end-to-end example `points=[[10,10]]`,
`labels=None` passes validation with foreground label 1. -/
theorem pointStep_spec_witness :
    pointStep (some [[(10 : ℚ), 10]]) none = .ok ([[(10 : ℚ), 10]], List.replicate 1 1) :=
  (pointStep_spec none [[(10 : ℚ), 10]] []).2.2.2.2.1 (by decide) (by decide)

/-- Reordering a pair so min ≤ max. -/
theorem ifPair_min_max (a b : ℚ) :
    (if a ≤ b then (a, b) else (b, a)) = (min a b, max a b) := by
  split
  · rw [min_eq_left ‹a ≤ b›, max_eq_right ‹a ≤ b›]
  · have hba : b ≤ a := le_of_not_le ‹¬ a ≤ b›
    rw [min_eq_right hba, max_eq_left hba]

/-- Clipping keeps its output inside the clipping interval. -/
theorem npClip_bounds (v lo hi : ℚ) (h : lo ≤ hi) :
    lo ≤ npClip v lo hi ∧ npClip v lo hi ≤ hi :=
  ⟨le_min (le_max_right _ _) h, min_le_right _ _⟩

/-- Clipping is the identity on values already in range. -/
theorem npClip_of_mem (v lo hi : ℚ) (hlo : lo ≤ v) (hhi : v ≤ hi) :
    npClip v lo hi = v := by
  rw [npClip, max_eq_left hlo, min_eq_left hhi]

/-- Closed form of the box-prompt branch on a 4-value box: clip each
coordinate, reorder each axis to (min, max), reject when either extent is
below 1, otherwise pass `[x_min, y_min, x_max, y_max]` to the model. -/
theorem boxStep_normalize (w h : ℕ) (x1 y1 x2 y2 : ℚ) :
    boxStep w h (some [x1, y1, x2, y2]) =
      (let cx1 := npClip x1 0 ((w : ℚ) - 1)
       let cx2 := npClip x2 0 ((w : ℚ) - 1)
       let cy1 := npClip y1 0 ((h : ℚ) - 1)
       let cy2 := npClip y2 0 ((h : ℚ) - 1)
       if max cx1 cx2 - min cx1 cx2 < 1 ∨ max cy1 cy2 - min cy1 cy2 < 1 then
         .error "Il bounding box è troppo piccolo."
       else .ok [min cx1 cx2, min cy1 cy2, max cx1 cx2, max cy1 cy2]) := by
  simp only [boxStep, ifPair_min_max]
  rw [abs_of_nonneg (sub_nonneg.mpr (min_le_max (a := npClip x1 0 ((w : ℚ) - 1)))),
    abs_of_nonneg (sub_nonneg.mpr (min_le_max (a := npClip y1 0 ((h : ℚ) - 1))))]

/-- C1: box-prompt validation on a decoded `w × h` image: a missing box
fails; a box without exactly 4 values fails; coordinates are clipped
axis-wise into `[0, w-1]` and `[0, h-1]` and reordered so min ≤ max; a
clipped extent below 1 on either axis fails; otherwise the model receives
the normalized `[x_min, y_min, x_max, y_max]`, in range and ordered; in
particular an in-range box `(x2, y1, x1, y2)` with `x1 < x2` is
normalized to `(x1, y1, x2, y2)`. -/
theorem boxStep_spec (w h : ℕ) (hw : 1 ≤ w) (hh : 1 ≤ h)
    (b : List ℚ) (x1 y1 x2 y2 : ℚ) :
    (boxStep w h none = .error "Devi fornire un bounding box per la modalità box.") ∧
    (b.length ≠ 4 → boxStep w h (some b) =
      .error "Il bounding box deve contenere 4 valori [x1, y1, x2, y2].") ∧
    (max (npClip x1 0 ((w : ℚ) - 1)) (npClip x2 0 ((w : ℚ) - 1)) -
        min (npClip x1 0 ((w : ℚ) - 1)) (npClip x2 0 ((w : ℚ) - 1)) < 1 ∨
      max (npClip y1 0 ((h : ℚ) - 1)) (npClip y2 0 ((h : ℚ) - 1)) -
        min (npClip y1 0 ((h : ℚ) - 1)) (npClip y2 0 ((h : ℚ) - 1)) < 1 →
      boxStep w h (some [x1, y1, x2, y2]) = .error "Il bounding box è troppo piccolo.") ∧
    (¬ (max (npClip x1 0 ((w : ℚ) - 1)) (npClip x2 0 ((w : ℚ) - 1)) -
          min (npClip x1 0 ((w : ℚ) - 1)) (npClip x2 0 ((w : ℚ) - 1)) < 1 ∨
        max (npClip y1 0 ((h : ℚ) - 1)) (npClip y2 0 ((h : ℚ) - 1)) -
          min (npClip y1 0 ((h : ℚ) - 1)) (npClip y2 0 ((h : ℚ) - 1)) < 1) →
      boxStep w h (some [x1, y1, x2, y2]) =
        .ok [min (npClip x1 0 ((w : ℚ) - 1)) (npClip x2 0 ((w : ℚ) - 1)),
             min (npClip y1 0 ((h : ℚ) - 1)) (npClip y2 0 ((h : ℚ) - 1)),
             max (npClip x1 0 ((w : ℚ) - 1)) (npClip x2 0 ((w : ℚ) - 1)),
             max (npClip y1 0 ((h : ℚ) - 1)) (npClip y2 0 ((h : ℚ) - 1))] ∧
      0 ≤ min (npClip x1 0 ((w : ℚ) - 1)) (npClip x2 0 ((w : ℚ) - 1)) ∧
      max (npClip x1 0 ((w : ℚ) - 1)) (npClip x2 0 ((w : ℚ) - 1)) ≤ (w : ℚ) - 1 ∧
      0 ≤ min (npClip y1 0 ((h : ℚ) - 1)) (npClip y2 0 ((h : ℚ) - 1)) ∧
      max (npClip y1 0 ((h : ℚ) - 1)) (npClip y2 0 ((h : ℚ) - 1)) ≤ (h : ℚ) - 1 ∧
      min (npClip x1 0 ((w : ℚ) - 1)) (npClip x2 0 ((w : ℚ) - 1)) ≤
        max (npClip x1 0 ((w : ℚ) - 1)) (npClip x2 0 ((w : ℚ) - 1)) ∧
      min (npClip y1 0 ((h : ℚ) - 1)) (npClip y2 0 ((h : ℚ) - 1)) ≤
        max (npClip y1 0 ((h : ℚ) - 1)) (npClip y2 0 ((h : ℚ) - 1))) ∧
    (0 ≤ x1 → x2 ≤ (w : ℚ) - 1 → 0 ≤ y1 → y2 ≤ (h : ℚ) - 1 →
      x1 < x2 → 1 ≤ x2 - x1 → y1 ≤ y2 → 1 ≤ y2 - y1 →
      boxStep w h (some [x2, y1, x1, y2]) = .ok [x1, y1, x2, y2]) := by
  have hwq : (0 : ℚ) ≤ (w : ℚ) - 1 := by
    have : (1 : ℚ) ≤ (w : ℚ) := by exact_mod_cast hw
    linarith
  have hhq : (0 : ℚ) ≤ (h : ℚ) - 1 := by
    have : (1 : ℚ) ≤ (h : ℚ) := by exact_mod_cast hh
    linarith
  refine ⟨rfl, ?_, ?_, ?_, ?_⟩
  · intro hlen
    rcases b with _ | ⟨a1, _ | ⟨a2, _ | ⟨a3, _ | ⟨a4, _ | ⟨a5, rest⟩⟩⟩⟩⟩ <;>
      first
        | rfl
        | simp at hlen
  · intro hsmall
    rw [boxStep_normalize]
    simp only [if_pos hsmall]
  · intro hbig
    rw [boxStep_normalize]
    simp only [if_neg hbig]
    refine ⟨trivial, ?_, ?_, ?_, ?_, min_le_max, min_le_max⟩
    · exact le_min (npClip_bounds x1 0 _ hwq).1 (npClip_bounds x2 0 _ hwq).1
    · exact max_le (npClip_bounds x1 0 _ hwq).2 (npClip_bounds x2 0 _ hwq).2
    · exact le_min (npClip_bounds y1 0 _ hhq).1 (npClip_bounds y2 0 _ hhq).1
    · exact max_le (npClip_bounds y1 0 _ hhq).2 (npClip_bounds y2 0 _ hhq).2
  · intro hx1 hx2 hy1 hy2 hlt hxd hyle hyd
    have hx12 : x1 ≤ x2 := le_of_lt hlt
    have c1 : npClip x2 0 ((w : ℚ) - 1) = x2 :=
      npClip_of_mem _ _ _ (le_trans hx1 hx12) hx2
    have c2 : npClip x1 0 ((w : ℚ) - 1) = x1 :=
      npClip_of_mem _ _ _ hx1 (le_trans hx12 hx2)
    have c3 : npClip y1 0 ((h : ℚ) - 1) = y1 :=
      npClip_of_mem _ _ _ hy1 (le_trans hyle hy2)
    have c4 : npClip y2 0 ((h : ℚ) - 1) = y2 :=
      npClip_of_mem _ _ _ (le_trans hy1 hyle) hy2
    rw [boxStep_normalize]
    simp only [c1, c2, c3, c4]
    rw [min_eq_right hx12, max_eq_left hx12, min_eq_left hyle, max_eq_right hyle,
      if_neg (by push_neg; constructor <;> linarith)]

/-- Witness for C1: the swapped box (5,1,2,3) on a 10×10 image is
normalized to (2,1,5,3). -/
theorem boxStep_spec_witness :
    boxStep 10 10 (some [(5 : ℚ), 1, 2, 3]) = .ok [(2 : ℚ), 1, 5, 3] :=
  (boxStep_spec 10 10 (by decide) (by decide) [] 2 1 5 3).2.2.2.2
    (by with_unfolding_all decide) (by with_unfolding_all decide)
    (by with_unfolding_all decide) (by with_unfolding_all decide)
    (by with_unfolding_all decide) (by with_unfolding_all decide)
    (by with_unfolding_all decide) (by with_unfolding_all decide)

/-- C3: after a first successful load of an (algorithm, size) key, a
second load of the same key returns the identical cached instance with
the state unchanged (so no new model is constructed from the weights
file), and no call of `_load_model` ever removes an entry from the
cache. -/
theorem load_model_cached (avail : Bool) (env : Env) (a s : String)
    (st st' : LoadState) (m : Model)
    (h : loadModel avail env a s st = (.ok m, st')) :
    loadModel avail env a s st' = (.ok m, st') ∧
    (loadModel avail env a s st').2.constructed = st'.constructed ∧
    (∀ e ∈ st.cache, e ∈ st'.cache) ∧
    (∀ (avail' : Bool) (env' : Env) (a' s' : String) (st0 : LoadState),
      ∀ e ∈ st0.cache, e ∈ (loadModel avail' env' a' s' st0).2.cache) := by
  have hmono : ∀ (avail' : Bool) (env' : Env) (a' s' : String) (st0 : LoadState),
      ∀ e ∈ st0.cache, e ∈ (loadModel avail' env' a' s' st0).2.cache := by
    intro avail' env' a' s' st0 e he
    rcases avail' with _ | _
    · simpa [loadModel] using he
    · rw [loadModel]
      simp only [Bool.true_eq_false, if_false]
      rcases hc : cacheFind (a' ++ ":" ++ pyLower s') st0.cache with _ | m0
      · rcases hr : resolveWeights env' a' s' with e' | w
        · simpa using he
        · simp only []
          exact List.mem_cons_of_mem _ he
      · simpa using he
  rcases avail with _ | _
  · rw [loadModel] at h
    simp at h
  · rw [loadModel] at h
    simp only [Bool.true_eq_false, if_false] at h
    rcases hc : cacheFind (a ++ ":" ++ pyLower s) st.cache with _ | m0
    · rw [hc] at h
      rcases hr : resolveWeights env a s with e' | w
      · rw [hr] at h
        simp at h
      · rw [hr] at h
        simp only [Prod.mk.injEq, Except.ok.injEq] at h
        obtain ⟨hm, hst⟩ := h
        subst hm
        have hfind : cacheFind (a ++ ":" ++ pyLower s) st'.cache =
            some ⟨a, w, st.constructed.length⟩ := by
          rw [← hst]
          simp [cacheFind]
        refine ⟨?_, ?_, ?_, hmono⟩
        · rw [loadModel]
          simp [hfind]
        · rw [loadModel]
          simp [hfind]
        · intro e he
          rw [← hst]
          exact List.mem_cons_of_mem _ he
    · rw [hc] at h
      simp only [Prod.mk.injEq, Except.ok.injEq] at h
      obtain ⟨hm, hst⟩ := h
      subst hm hst
      refine ⟨?_, ?_, fun e he => he, hmono⟩
      · rw [loadModel]
        simp [hc]
      · rw [loadModel]
        simp [hc]

/-- Witness for C3: a second load of ("sam", "base") after a successful
first load returns the identical instance and leaves the state as is. -/
theorem load_model_cached_witness :
    loadModel true (fun _ => none) "sam" "base"
        ⟨[("sam:base", ⟨"sam", "sam_b.pt", 0⟩)], ["sam_b.pt"]⟩ =
      (.ok ⟨"sam", "sam_b.pt", 0⟩,
        ⟨[("sam:base", ⟨"sam", "sam_b.pt", 0⟩)], ["sam_b.pt"]⟩) :=
  (load_model_cached true (fun _ => none) "sam" "base" ⟨[], []⟩
      ⟨[("sam:base", ⟨"sam", "sam_b.pt", 0⟩)], ["sam_b.pt"]⟩
      ⟨"sam", "sam_b.pt", 0⟩ (by rfl)).1

/-- C5: when the serving library is unavailable, `_load_model` fails with
the availability error whatever the environment, size and cache hold — in
particular before any resolution outcome matters; an unsupported size or
an empty configured path makes `_resolve_weights` fail with an
invalid-configuration error; and any resolution error propagates out of
`_load_model` with the state unchanged, so no model is constructed. -/
theorem load_model_error_order (env : Env) (a s : String) (st : LoadState) :
    (loadModel false env a s st = (.error availMsg, st)) ∧
    (pyLower s ∉ VALID_MODEL_SIZES →
      resolveWeights env a s =
        .error ("Dimensione modello non supportata: " ++ pyLower s)) ∧
    (pyLower s ∈ VALID_MODEL_SIZES → (a = "sam" ∨ a = "sam2") →
      (if a = "sam" then SAM_MODEL_FILES env (pyLower s)
       else SAM2_MODEL_FILES env (pyLower s)) = "" →
      resolveWeights env a s =
        .error ("Peso del modello non configurato per " ++ a ++ ":" ++ pyLower s)) ∧
    (∀ e, cacheFind (a ++ ":" ++ pyLower s) st.cache = none →
      resolveWeights env a s = .error e →
      loadModel true env a s st = (.error e, st)) := by
  refine ⟨by rw [loadModel]; simp, ?_, ?_, ?_⟩
  · intro hnot
    simp [resolveWeights, hnot]
  · intro hmem ha hempty
    rcases ha with rfl | rfl <;> simp_all [resolveWeights]
  · intro e hcache herr
    rw [loadModel]
    simp only [Bool.true_eq_false, if_false]
    rw [hcache, herr]

/-- Witness for C5 at concrete inputs: unavailable library, unsupported
size "medium", tiny path configured empty, and error propagation through
`_load_model`. -/
theorem load_model_error_order_witness :
    loadModel false (fun _ => none) "sam" "tiny" ⟨[], []⟩ =
      (.error availMsg, ⟨[], []⟩) ∧
    resolveWeights (fun _ => none) "sam" "medium" =
      .error ("Dimensione modello non supportata: " ++ pyLower "medium") ∧
    resolveWeights (fun n => if n = "SAM_MODEL_TINY_PATH" then some "" else none)
        "sam" "tiny" =
      .error ("Peso del modello non configurato per " ++ "sam" ++ ":" ++ pyLower "tiny") ∧
    loadModel true (fun _ => none) "sam" "medium" ⟨[], []⟩ =
      (.error ("Dimensione modello non supportata: " ++ pyLower "medium"), ⟨[], []⟩) :=
  ⟨(load_model_error_order (fun _ => none) "sam" "tiny" ⟨[], []⟩).1,
   (load_model_error_order (fun _ => none) "sam" "medium" ⟨[], []⟩).2.1 (by decide),
   (load_model_error_order (fun n => if n = "SAM_MODEL_TINY_PATH" then some "" else none)
      "sam" "tiny" ⟨[], []⟩).2.2.1 (by decide) (Or.inl rfl) (by rfl),
   (load_model_error_order (fun _ => none) "sam" "medium" ⟨[], []⟩).2.2.2 _
      (by rfl) ((load_model_error_order (fun _ => none) "sam" "medium" ⟨[], []⟩).2.1
        (by decide))⟩

/-- Lower-casing fixes characters that are already lower-case ASCII. -/
theorem charLower_ofNat_fix (n : ℕ) (h1 : 97 ≤ n) (h2 : n ≤ 122) :
    charLower (Char.ofNat n) = Char.ofNat n := by
  interval_cases n <;> decide

/-- ASCII lower-casing of a character is idempotent. -/
theorem charLower_idem (c : Char) : charLower (charLower c) = charLower c := by
  by_cases h : 65 ≤ c.toNat ∧ c.toNat ≤ 90
  · have h1 : charLower c = Char.ofNat (c.toNat + 32) := by
      rw [charLower, if_pos h]
    rw [h1]
    exact charLower_ofNat_fix _ (by omega) (by omega)
  · have h1 : charLower c = c := by rw [charLower, if_neg h]
    rw [h1, h1]

/-- Python lower-casing is idempotent. -/
theorem pyLower_idem (s : String) : pyLower (pyLower s) = pyLower s := by
  show (⟨(s.data.map charLower).map charLower⟩ : String) = ⟨s.data.map charLower⟩
  rw [List.map_map]
  congr 1
  exact List.map_congr_left fun c _ => charLower_idem c

/-- C10: model-size handling is case-insensitive — `_resolve_weights` and
`_load_model` depend on the size string only through its lower-casing, so
a size behaves identically to its lower-cased form (same validity check,
resolved path and cache key), and two sizes differing only in letter case
produce the same cache key and identical load behaviour. -/
theorem size_case_insensitive (avail : Bool) (env : Env) (a : String)
    (st : LoadState) (s s1 s2 : String) (h12 : pyLower s1 = pyLower s2) :
    resolveWeights env a s = resolveWeights env a (pyLower s) ∧
    loadModel avail env a s st = loadModel avail env a (pyLower s) st ∧
    resolveWeights env a s1 = resolveWeights env a s2 ∧
    loadModel avail env a s1 st = loadModel avail env a s2 st ∧
    a ++ ":" ++ pyLower s1 = a ++ ":" ++ pyLower s2 := by
  have hres : ∀ t1 t2 : String, pyLower t1 = pyLower t2 →
      resolveWeights env a t1 = resolveWeights env a t2 := by
    intro t1 t2 ht
    rw [resolveWeights, resolveWeights, ht]
  have hload : ∀ t1 t2 : String, pyLower t1 = pyLower t2 →
      loadModel avail env a t1 st = loadModel avail env a t2 st := by
    intro t1 t2 ht
    rw [loadModel, loadModel, ht, hres t1 t2 ht]
  exact ⟨hres s (pyLower s) (pyLower_idem s).symm,
    hload s (pyLower s) (pyLower_idem s).symm,
    hres s1 s2 h12, hload s1 s2 h12, by rw [h12]⟩

/-- Witness for C10 at sizes "Base" and "BASE". -/
theorem size_case_insensitive_witness :
    resolveWeights (fun _ => none) "sam" "Base" =
      resolveWeights (fun _ => none) "sam" (pyLower "Base") ∧
    loadModel true (fun _ => none) "sam" "Base" ⟨[], []⟩ =
      loadModel true (fun _ => none) "sam" (pyLower "Base") ⟨[], []⟩ ∧
    resolveWeights (fun _ => none) "sam" "Base" =
      resolveWeights (fun _ => none) "sam" "BASE" ∧
    loadModel true (fun _ => none) "sam" "Base" ⟨[], []⟩ =
      loadModel true (fun _ => none) "sam" "BASE" ⟨[], []⟩ ∧
    "sam" ++ ":" ++ pyLower "Base" = "sam" ++ ":" ++ pyLower "BASE" :=
  size_case_insensitive true (fun _ => none) "sam" ⟨[], []⟩ "Base" "Base" "BASE"
    (by decide)

/-- C4 counterexample: with both `SAM_MODEL_PATH = "p.pt"` and
`SAM_MODEL_BASE_PATH = "q.pt"` set, base-size resolution returns
`SAM_MODEL_PATH`'s value, not `SAM_MODEL_BASE_PATH`'s — the code consults
`<ALGO>_MODEL_PATH` first, the opposite priority to the one claimed. -/
theorem base_priority_counterexample :
    resolveWeights
        (fun n => if n = "SAM_MODEL_PATH" then some "p.pt"
          else if n = "SAM_MODEL_BASE_PATH" then some "q.pt" else none)
        "sam" "base" = .ok "p.pt" ∧
    ("p.pt" : String) ≠ "q.pt" :=
  ⟨by rfl, by decide⟩

/-- C4 (amended): for every algorithm in {sam, sam2} and supported size,
`_resolve_weights` resolves exactly the path described by the
`<ALGO>_MODEL_<SIZE>_PATH` naming pattern with its default filename
fallback — except that for the "base" size the two sources are consulted
with `<ALGO>_MODEL_PATH` taken first when set to a non-empty value and
`<ALGO>_MODEL_BASE_PATH` (then the default filename) as the fallback —
with the empty-path error when the described path is empty. -/
theorem resolveWeights_matches_spec (env : Env) (algo size : String)
    (ha : algo ∈ ["sam", "sam2"]) (hs : size ∈ VALID_MODEL_SIZES) :
    resolveWeights env algo size =
      if specWeights env algo size = "" then
        .error ("Peso del modello non configurato per " ++ algo ++ ":" ++ size)
      else .ok (specWeights env algo size) := by
  simp only [List.mem_cons, List.mem_singleton, List.not_mem_nil, or_false,
    VALID_MODEL_SIZES] at ha hs
  rcases ha with rfl | rfl <;> rcases hs with rfl | rfl | rfl | rfl <;> rfl

/-- Membership in a `zipWith` comes from members of both lists. -/
theorem mem_zipWith {α β γ : Type} {f : α → β → γ} {l1 : List α}
    {l2 : List β} {c : γ} (h : c ∈ List.zipWith f l1 l2) :
    ∃ a ∈ l1, ∃ b ∈ l2, c = f a b := by
  induction l1 generalizing l2 with
  | nil => simp at h
  | cons x xs ih =>
    cases l2 with
    | nil => simp at h
    | cons y ys =>
      rw [List.zipWith_cons_cons] at h
      rcases List.mem_cons.mp h with rfl | h'
      · exact ⟨x, List.mem_cons_self x xs, y, List.mem_cons_self y ys, rfl⟩
      · obtain ⟨a, ha, b, hb, rfl⟩ := ih h'
        exact ⟨a, List.mem_cons_of_mem _ ha, b, List.mem_cons_of_mem _ hb, rfl⟩

/-- C7: after blacking out every pixel outside the mask, cropping is
skipped exactly when the mask's bounding rectangle has zero width or
height (returning the full blacked image), a nondegenerate rectangle
yields the crop to it, and in every case the result is no larger than the
source image in either spatial dimension. -/
theorem maskPostprocess_spec (img : RGBImg) (mask : List (List ℕ)) (w : ℕ)
    (hrect : ∀ row ∈ img, row.length = w) :
    ((boundingRect mask).2.2.1 = 0 ∨ (boundingRect mask).2.2.2 = 0 →
      maskPostprocess img mask = blackOutside img mask) ∧
    (¬ ((boundingRect mask).2.2.1 = 0 ∨ (boundingRect mask).2.2.2 = 0) →
      maskPostprocess img mask =
        (pySlice (blackOutside img mask) (boundingRect mask).2.1
            ((boundingRect mask).2.1 + (boundingRect mask).2.2.2)).map
          (fun row => pySlice row (boundingRect mask).1
            ((boundingRect mask).1 + (boundingRect mask).2.2.1))) ∧
    (maskPostprocess img mask).length ≤ img.length ∧
    (∀ row ∈ maskPostprocess img mask, row.length ≤ w) := by
  have hblack : ∀ row ∈ blackOutside img mask, row.length ≤ w := by
    intro row hrow
    obtain ⟨a, ha, b, _hb, rfl⟩ := mem_zipWith hrow
    rw [List.length_zipWith]
    calc Nat.min a.length b.length ≤ a.length := Nat.min_le_left _ _
      _ = w := hrect a ha
  have hblen : (blackOutside img mask).length ≤ img.length := by
    rw [blackOutside, List.length_zipWith]
    exact Nat.min_le_left _ _
  have hskip : (boundingRect mask).2.2.1 = 0 ∨ (boundingRect mask).2.2.2 = 0 →
      maskPostprocess img mask = blackOutside img mask := by
    intro hz
    rw [maskPostprocess, cropStep]
    simp only [if_pos hz]
  have hcrop : ¬ ((boundingRect mask).2.2.1 = 0 ∨ (boundingRect mask).2.2.2 = 0) →
      maskPostprocess img mask =
        (pySlice (blackOutside img mask) (boundingRect mask).2.1
            ((boundingRect mask).2.1 + (boundingRect mask).2.2.2)).map
          (fun row => pySlice row (boundingRect mask).1
            ((boundingRect mask).1 + (boundingRect mask).2.2.1)) := by
    intro hz
    rw [maskPostprocess, cropStep]
    simp only [if_neg hz]
  refine ⟨hskip, hcrop, ?_, ?_⟩
  · by_cases hz : (boundingRect mask).2.2.1 = 0 ∨ (boundingRect mask).2.2.2 = 0
    · rw [hskip hz]
      exact hblen
    · rw [hcrop hz, List.length_map, pySlice, List.length_take]
      calc Nat.min ((boundingRect mask).2.1 + (boundingRect mask).2.2.2 -
              (boundingRect mask).2.1)
              ((blackOutside img mask).drop (boundingRect mask).2.1).length
          ≤ ((blackOutside img mask).drop (boundingRect mask).2.1).length :=
            Nat.min_le_right _ _
        _ ≤ (blackOutside img mask).length := by
            rw [List.length_drop]; omega
        _ ≤ img.length := hblen
  · intro row hrow
    by_cases hz : (boundingRect mask).2.2.1 = 0 ∨ (boundingRect mask).2.2.2 = 0
    · rw [hskip hz] at hrow
      exact hblack row hrow
    · rw [hcrop hz] at hrow
      obtain ⟨r0, hr0, rfl⟩ := List.mem_map.mp hrow
      have hr0m : r0 ∈ blackOutside img mask :=
        List.mem_of_mem_drop (List.mem_of_mem_take hr0)
      calc (pySlice r0 (boundingRect mask).1
              ((boundingRect mask).1 + (boundingRect mask).2.2.1)).length
          ≤ r0.length := by
            rw [pySlice, List.length_take, List.length_drop]; omega
        _ ≤ w := hblack r0 hr0m

/-- Witness for C7 on a concrete 2×2 image and mask. -/
theorem maskPostprocess_spec_witness :
    (maskPostprocess [[[1, 2, 3], [4, 5, 6]], [[7, 8, 9], [10, 11, 12]]]
        [[0, 1], [0, 0]]).length ≤
      ([[[1, 2, 3], [4, 5, 6]], [[7, 8, 9], [10, 11, 12]]] : RGBImg).length ∧
    ∀ row ∈ maskPostprocess [[[1, 2, 3], [4, 5, 6]], [[7, 8, 9], [10, 11, 12]]]
        [[0, 1], [0, 0]], row.length ≤ 2 :=
  ⟨(maskPostprocess_spec [[[1, 2, 3], [4, 5, 6]], [[7, 8, 9], [10, 11, 12]]]
      [[0, 1], [0, 0]] 2 (by decide)).2.2.1,
   (maskPostprocess_spec [[[1, 2, 3], [4, 5, 6]], [[7, 8, 9], [10, 11, 12]]]
      [[0, 1], [0, 0]] 2 (by decide)).2.2.2⟩

/-- Witness for the amended C4 at a concrete environment with
`SAM_MODEL_PATH` set. -/
theorem resolveWeights_matches_spec_witness :
    resolveWeights (fun n => if n = "SAM_MODEL_PATH" then some "p.pt" else none)
        "sam" "base" =
      if specWeights (fun n => if n = "SAM_MODEL_PATH" then some "p.pt" else none)
          "sam" "base" = "" then
        .error ("Peso del modello non configurato per " ++ "sam" ++ ":" ++ "base")
      else .ok (specWeights
        (fun n => if n = "SAM_MODEL_PATH" then some "p.pt" else none) "sam" "base") :=
  resolveWeights_matches_spec
    (fun n => if n = "SAM_MODEL_PATH" then some "p.pt" else none) "sam" "base"
    (by decide) (by decide)
